import Mathlib

/-!
Verification of the familyLedger bookkeeping application.

This file shallowly embeds the data model and the operations of the
repository (the SQLite-backed store in `src/database/*.js`, the IPC
envelope in `src/ipc/handlers.js`, and the client-side report
derivation in `renderer/src/components/ReportsView.tsx`) and proves
the stated properties about them.

Modelling conventions:
  - a database table is a `List` of row structures; `REAL` amounts are
    rationals (`ℚ`); SQL `TEXT` dates are `String`s compared with the
    lexicographic order (SQLite BINARY collation on ISO dates);
  - an optional / nullable JS value is an `Option`; a JS-falsy filter
    argument (absent, `undefined`, `null`, `''`, `0`) is `none`, since
    the source guards every optional filter with JS truthiness;
  - `Number(x.toFixed(2))` is modelled by `round2` (round half away
    from zero at two decimals, exact on the nonnegative rationals the
    code computes with);
  - SQL `GROUP BY k` is modelled as enumerating the distinct keys in
    ascending order (SQLite groups via a sorter / index on the key) and
    `ORDER BY` as a stable sort (SQLite's merge sorter breaks equal
    keys by insertion order).
-/

namespace FamilyLedger

/-- Direction of a record or budget: the `direction IN ('income','expense')`
CHECK constraint of the schema. -/
inductive Direction where
  | income
  | expense
deriving DecidableEq, Repr

/-- Budget period: the `period IN ('monthly','quarterly','yearly')` CHECK
constraint of the schema. -/
inductive Period where
  | monthly
  | quarterly
  | yearly
deriving DecidableEq, Repr

/-- One row of the `records` table (db.js `CREATE TABLE records`). -/
structure RecordRow where
  id : Int
  book_id : Int
  member_id : Option Int
  direction : Direction
  category : String
  amount : ℚ
  date : String
  note : String
  created_at : String
deriving DecidableEq, Repr

/-- One row of the `budgets` table (db.js `CREATE TABLE budgets`). -/
structure BudgetRow where
  id : Int
  book_id : Int
  member_id : Option Int
  direction : Direction
  category : String
  amount : ℚ
  period : Period
  date : String
deriving DecidableEq, Repr

/-- Rounding to two decimals: models JS `Number(x.toFixed(2))` on the
nonnegative rationals produced by the aggregation code (round to the
nearest hundredth, halves up). -/
def round2 (q : ℚ) : ℚ := (round (q * 100) : ℚ) / 100

/-! ## getSummary (records.js) -/

/-- Options of `getSummary(bookId, options)`: optional `startDate`,
`endDate`, `member_id`, each guarded by JS truthiness in the source. -/
structure SummaryOptions where
  startDate : Option String := none
  endDate : Option String := none
  member_id : Option Int := none
deriving DecidableEq, Repr

/-- The WHERE clause built by `getSummary`: `book_id = ?` plus
`date >= startDate`, `date <= endDate`, `member_id = ?` for each
supplied option. -/
def matchesSummary (bookId : Int) (o : SummaryOptions) (r : RecordRow) : Bool :=
  decide (r.book_id = bookId)
    && (match o.startDate with
        | none => true
        | some s => decide (s ≤ r.date))
    && (match o.endDate with
        | none => true
        | some e => decide (r.date ≤ e))
    && (match o.member_id with
        | none => true
        | some m => decide (r.member_id = some m))

/-- The result shape of `getSummary`. -/
structure Summary where
  income : ℚ
  expense : ℚ
  balance : ℚ
deriving DecidableEq, Repr

/-- records.js `getSummary`: `SUM(CASE WHEN direction = 'income' THEN amount
ELSE 0 END)` and the expense analogue over the filtered rows, wrapped in
COALESCE(..., 0) (sum over the empty set is 0), with
`balance = income - expense`. -/
def getSummary (recs : List RecordRow) (bookId : Int) (o : SummaryOptions) : Summary :=
  let matching := recs.filter (matchesSummary bookId o)
  let inc := (matching.map fun r => if r.direction = Direction.income then r.amount else 0).sum
  let exp := (matching.map fun r => if r.direction = Direction.expense then r.amount else 0).sum
  { income := inc, expense := exp, balance := inc - exp }

/-! ## getCategorySummary (records.js) -/

/-- Options of `getCategorySummary(bookId, options)`; the source destructures
with `direction = 'expense'` as default. -/
structure CategorySummaryOptions where
  direction : Direction := Direction.expense
  startDate : Option String := none
  endDate : Option String := none
  member_id : Option Int := none
deriving DecidableEq, Repr

/-- The WHERE clause shared by both queries of `getCategorySummary`:
`book_id = ? AND direction = ?` plus the optional date range and member
equality. -/
def matchesCategorySummary (bookId : Int) (o : CategorySummaryOptions) (r : RecordRow) : Bool :=
  decide (r.book_id = bookId)
    && decide (r.direction = o.direction)
    && (match o.startDate with
        | none => true
        | some s => decide (s ≤ r.date))
    && (match o.endDate with
        | none => true
        | some e => decide (r.date ≤ e))
    && (match o.member_id with
        | none => true
        | some m => decide (r.member_id = some m))

/-- The grand total of `getCategorySummary`: `SELECT COALESCE(SUM(amount), 0)`
over the same filtered set, with no category grouping. -/
def grandTotalOf (recs : List RecordRow) (bookId : Int) (o : CategorySummaryOptions) : ℚ :=
  ((recs.filter (matchesCategorySummary bookId o)).map fun r => r.amount).sum

/-- Insert a category key into a sorted duplicate-free list of keys, keeping
it sorted and duplicate-free. -/
def insertCat (c : String) : List String → List String
  | [] => [c]
  | d :: ds =>
      if c = d then d :: ds
      else if c < d then c :: d :: ds
      else d :: insertCat c ds

/-- The distinct categories of a row set in ascending order: models the
enumeration order of SQLite `GROUP BY category` (the grouping sorter emits
keys ascending under BINARY collation). -/
def categoriesAsc (rs : List RecordRow) : List String :=
  rs.foldr (fun r acc => insertCat r.category acc) []

/-- One grouped row of the `GROUP BY category` query:
`category, SUM(amount) as total, COUNT(*) as count`. -/
structure CatRow where
  category : String
  total : ℚ
  count : Nat
deriving DecidableEq, Repr

/-- The grouped rows of `getCategorySummary` in group-enumeration order
(category ascending), before the outer ORDER BY. -/
def groupRows (rs : List RecordRow) : List CatRow :=
  (categoriesAsc rs).map fun c =>
    let g := rs.filter fun r => decide (r.category = c)
    { category := c, total := (g.map fun r => r.amount).sum, count := g.length }

/-- Stable descending insertion by `total`: a row is placed before the first
existing row whose total is not larger, so rows with equal totals keep
their relative order. -/
def insertDesc (a : CatRow) : List CatRow → List CatRow
  | [] => [a]
  | b :: bs => if a.total < b.total then b :: insertDesc a bs else a :: b :: bs

/-- The `ORDER BY total DESC` of `getCategorySummary`. The SQL names no
tie-break and SQLite leaves the relative order of rows with equal sort
keys unspecified, so this executable model fixes one concrete
total-descending order; the proofs about the output rely only on it being
a permutation of the grouped rows. -/
def sortByTotalDesc : List CatRow → List CatRow
  | [] => []
  | a :: as => insertDesc a (sortByTotalDesc as)

/-- One output item of `getCategorySummary`. -/
structure CategorySummaryItem where
  category : String
  total : ℚ
  count : Nat
  percentage : ℚ
deriving DecidableEq, Repr

/-- records.js `getCategorySummary`: grand total over the filtered set, the
same set grouped by category with `ORDER BY total DESC`, and per group
`percentage = grandTotal > 0 ? Number(((total / grandTotal) * 100).toFixed(2)) : 0`. -/
def getCategorySummary (recs : List RecordRow) (bookId : Int) (o : CategorySummaryOptions) :
    List CategorySummaryItem :=
  let grandTotal := grandTotalOf recs bookId o
  let matching := recs.filter (matchesCategorySummary bookId o)
  (sortByTotalDesc (groupRows matching)).map fun g =>
    { category := g.category, total := g.total, count := g.count,
      percentage := if 0 < grandTotal then round2 (g.total / grandTotal * 100) else 0 }

/-! ## listBudgets and getBudgetExecution (budgets.js) -/

/-- Options of `listBudgets(bookId, options)`. -/
structure ListBudgetsOptions where
  direction : Option Direction := none
  period : Option Period := none
  member_id : Option Int := none
deriving DecidableEq, Repr

/-- The WHERE clause of `listBudgets`: `book_id = ?` plus the optional
direction, period and member equality filters. -/
def matchesListBudgets (bookId : Int) (o : ListBudgetsOptions) (b : BudgetRow) : Bool :=
  decide (b.book_id = bookId)
    && (match o.direction with
        | none => true
        | some d => decide (b.direction = d))
    && (match o.period with
        | none => true
        | some p => decide (b.period = p))
    && (match o.member_id with
        | none => true
        | some m => decide (b.member_id = some m))

/-- Stable ascending insertion by `category` (ties keep original order). -/
def insertBudgetAsc (a : BudgetRow) : List BudgetRow → List BudgetRow
  | [] => [a]
  | b :: bs => if b.category < a.category then b :: insertBudgetAsc a bs else a :: b :: bs

/-- The `ORDER BY b.category ASC` of `listBudgets`, modelled as a stable
sort over table order. -/
def sortByCategoryAsc : List BudgetRow → List BudgetRow
  | [] => []
  | a :: as => insertBudgetAsc a (sortByCategoryAsc as)

/-- budgets.js `listBudgets`. The `LEFT JOIN members` of the source only
adds the display column `member_name` (member ids are unique primary keys,
so the join neither drops nor duplicates budget rows) and is therefore not
part of the row model. -/
def listBudgets (budgets : List BudgetRow) (bookId : Int) (o : ListBudgetsOptions) :
    List BudgetRow :=
  sortByCategoryAsc (budgets.filter (matchesListBudgets bookId o))

/-- Options of `getBudgetExecution(bookId, options)`. -/
structure ExecOptions where
  startDate : Option String := none
  endDate : Option String := none
deriving DecidableEq, Repr

/-- The WHERE clause of the actuals query of `getBudgetExecution`:
`book_id = ?` plus the optional date range. -/
def recInRange (bookId : Int) (o : ExecOptions) (r : RecordRow) : Bool :=
  decide (r.book_id = bookId)
    && (match o.startDate with
        | none => true
        | some s => decide (s ≤ r.date))
    && (match o.endDate with
        | none => true
        | some e => decide (r.date ≤ e))

/-- The actual total `getBudgetExecution` associates with one
`(direction, category)` key: the `SUM(amount) ... GROUP BY category,
direction` value looked up through `actualMap[key] || 0` (a missing key and
a group summing to 0 both yield 0, which coincides with the sum over the
possibly empty set of matching records). -/
def actualFor (recs : List RecordRow) (bookId : Int) (o : ExecOptions)
    (d : Direction) (c : String) : ℚ :=
  ((recs.filter fun r =>
      recInRange bookId o r && decide (r.direction = d) && decide (r.category = c)).map
    fun r => r.amount).sum

/-- One output row of `getBudgetExecution`: the budget row spread
(`...budget`) plus the four derived fields. -/
structure ExecRow where
  id : Int
  book_id : Int
  member_id : Option Int
  direction : Direction
  category : String
  amount : ℚ
  period : Period
  date : String
  actual : ℚ
  remaining : ℚ
  percentage : ℚ
  isOverBudget : Bool
deriving DecidableEq, Repr

/-- The body of the `budgets.map` of `getBudgetExecution`:
`actual = actualMap[key] || 0`, `remaining = budget.amount - actual`,
`percentage = budget.amount > 0 ? Number(((actual / budget.amount) * 100).toFixed(2)) : 0`,
`isOverBudget = remaining < 0`. -/
def enrichBudget (recs : List RecordRow) (bookId : Int) (o : ExecOptions)
    (b : BudgetRow) : ExecRow :=
  let actual := actualFor recs bookId o b.direction b.category
  let remaining := b.amount - actual
  { id := b.id, book_id := b.book_id, member_id := b.member_id,
    direction := b.direction, category := b.category, amount := b.amount,
    period := b.period, date := b.date,
    actual := actual, remaining := remaining,
    percentage := if 0 < b.amount then round2 (actual / b.amount * 100) else 0,
    isOverBudget := decide (remaining < 0) }

/-- budgets.js `getBudgetExecution`: all budgets of the book (via
`listBudgets(bookId)` with no options) mapped to enriched rows. -/
def getBudgetExecution (budgets : List BudgetRow) (recs : List RecordRow)
    (bookId : Int) (o : ExecOptions) : List ExecRow :=
  (listBudgets budgets bookId {}).map (enrichBudget recs bookId o)

/-- Projection of an execution row back to the budget fields it spreads. -/
def toBudgetRow (e : ExecRow) : BudgetRow :=
  { id := e.id, book_id := e.book_id, member_id := e.member_id,
    direction := e.direction, category := e.category, amount := e.amount,
    period := e.period, date := e.date }

/-! ## addBudget / updateBudget and the IPC envelope
(budgets.js, handlers.js) -/

/-- The budgets table as mutable state: its rows plus the AUTOINCREMENT
counter feeding `lastInsertRowid`. -/
structure BudgetsTable where
  rows : List BudgetRow
  nextId : Int
deriving DecidableEq, Repr

/-- The argument object of `addBudget(data)`: every field may be absent
(`undefined`, modelled as `none`); `member_id` destructures with default
`null`. -/
structure AddBudgetData where
  book_id : Option Int := none
  member_id : Option Int := none
  direction : Option Direction := none
  category : Option String := none
  amount : Option ℚ := none
  period : Option Period := none
  date : Option String := none
deriving DecidableEq, Repr

/-- The validation error message thrown by `addBudget` when a required
field is undefined. -/
def addBudgetErrMsg : String :=
  "预算数据不完整：book_id, direction, category, amount, period, date 为必需字段"

/-- The JS coercion `member_id ? Number(member_id) : null` applied to the
member parameter before it is bound: a falsy value (absent, null, 0)
becomes NULL. -/
def sanitizeMemberParam (m : Option Int) : Option Int :=
  match m with
  | some v => if v = 0 then none else some v
  | none => none

/-- The existing-budget lookup of `addBudget`:
`SELECT id FROM budgets WHERE book_id = ? AND category = ? ORDER BY id DESC
LIMIT 1` — the matching row with the largest id, if any. -/
def latestBudgetFor (rows : List BudgetRow) (b : Int) (c : String) : Option BudgetRow :=
  (rows.filter fun r => decide (r.book_id = b ∧ r.category = c)).foldl
    (fun acc r =>
      match acc with
      | none => some r
      | some a => if a.id < r.id then some r else some a)
    none

/-- budgets.js `addBudget`: reject when a required field is undefined
(before any write), otherwise update the latest existing
`(book_id, category)` row in place, or insert a fresh row. The returned
object echoes the input fields (with the existing or fresh id). -/
def addBudget (d : AddBudgetData) (t : BudgetsTable) :
    Except String (BudgetRow × BudgetsTable) :=
  if d.book_id = none ∨ d.direction = none ∨ d.category = none
      ∨ d.amount = none ∨ d.period = none ∨ d.date = none then
    Except.error addBudgetErrMsg
  else
    let bid := d.book_id.getD 0
    let dir := d.direction.getD Direction.income
    let cat := d.category.getD ""
    let amt := d.amount.getD 0
    let per := d.period.getD Period.monthly
    let dt := d.date.getD ""
    let mid := sanitizeMemberParam d.member_id
    match latestBudgetFor t.rows bid cat with
    | some existing =>
        let newRows := t.rows.map fun r =>
          if r.id = existing.id then
            { r with member_id := mid, direction := dir, amount := amt,
                     period := per, date := dt }
          else r
        Except.ok
          ({ id := existing.id, book_id := bid, member_id := d.member_id,
             direction := dir, category := cat, amount := amt,
             period := per, date := dt },
           { rows := newRows, nextId := t.nextId })
    | none =>
        Except.ok
          ({ id := t.nextId, book_id := bid, member_id := d.member_id,
             direction := dir, category := cat, amount := amt,
             period := per, date := dt },
           { rows := t.rows ++
               [{ id := t.nextId, book_id := bid, member_id := mid,
                  direction := dir, category := cat, amount := amt,
                  period := per, date := dt }],
             nextId := t.nextId + 1 })

/-- Two successive `addBudget` calls (the scenario of the upsert
property); an error leaves the table of that step unchanged. -/
def addBudgetTwice (d1 d2 : AddBudgetData) (t : BudgetsTable) : BudgetsTable :=
  match addBudget d1 t with
  | Except.ok (_, t1) =>
      match addBudget d2 t1 with
      | Except.ok (_, t2) => t2
      | Except.error _ => t1
  | Except.error _ => t

/-- The IPC response envelope `{success, data?, error?}` of handlers.js. -/
structure Envelope (α : Type) where
  success : Bool
  data : Option α := none
  error : Option String := none
deriving DecidableEq, Repr

/-- handlers.js `wrapHandler`: a normal result becomes
`{success: true, data}`, a thrown error becomes
`{success: false, error: error.message}`. -/
def wrapHandler {α : Type} (result : Except String α) : Envelope α :=
  match result with
  | Except.ok v => { success := true, data := some v }
  | Except.error m => { success := false, error := some m }

/-- The `budgets:add` IPC handler: `wrapHandler((data) => budgets.addBudget(data))`.
A validation throw happens before any write, so the table is returned
unchanged in the error case. -/
def budgetsAddHandler (d : AddBudgetData) (t : BudgetsTable) :
    Envelope BudgetRow × BudgetsTable :=
  match addBudget d t with
  | Except.ok (b, t2) => (wrapHandler (Except.ok b), t2)
  | Except.error m => (wrapHandler (Except.error m), t)

/-- The update object of `updateBudget(id, data)`: absent fields are
`none`. -/
structure UpdateBudgetData where
  member_id : Option Int := none
  direction : Option Direction := none
  category : Option String := none
  amount : Option ℚ := none
  period : Option Period := none
  date : Option String := none
deriving DecidableEq, Repr

/-- The SET clause of `updateBudget`: `COALESCE(?, column)` per column,
with the member parameter passed through the falsy-to-null coercion. -/
def applyBudgetUpdate (d : UpdateBudgetData) (b : BudgetRow) : BudgetRow :=
  { b with
    member_id :=
      match sanitizeMemberParam d.member_id with
      | some v => some v
      | none => b.member_id,
    direction := d.direction.getD b.direction,
    category := d.category.getD b.category,
    amount := d.amount.getD b.amount,
    period := d.period.getD b.period,
    date := d.date.getD b.date }

/-- The `{success, changes}` result of a mutation. -/
structure MutationResult where
  success : Bool
  changes : Nat
deriving DecidableEq, Repr

/-- budgets.js `updateBudget`: COALESCE-update of the row(s) matching the
id, reporting the number of matched rows as `changes`. -/
def updateBudget (rows : List BudgetRow) (id : Int) (d : UpdateBudgetData) :
    List BudgetRow × MutationResult :=
  let newRows := rows.map fun b => if b.id = id then applyBudgetUpdate d b else b
  let changes := (rows.filter fun b => decide (b.id = id)).length
  (newRows, { success := decide (0 < changes), changes := changes })

/-! ## listRecords and updateRecord (records.js) -/

/-- Options of `listRecords(bookId, options)`; `limit`/`offset` are JS
numbers guarded by truthiness, so `none` models any falsy value. -/
structure ListRecordsOptions where
  startDate : Option String := none
  endDate : Option String := none
  direction : Option Direction := none
  category : Option String := none
  member_id : Option Int := none
  limit : Option Nat := none
  offset : Option Nat := none
deriving DecidableEq, Repr

/-- The WHERE clause of `listRecords`. -/
def matchesListRecords (bookId : Int) (o : ListRecordsOptions) (r : RecordRow) : Bool :=
  decide (r.book_id = bookId)
    && (match o.startDate with
        | none => true
        | some s => decide (s ≤ r.date))
    && (match o.endDate with
        | none => true
        | some e => decide (r.date ≤ e))
    && (match o.direction with
        | none => true
        | some d => decide (r.direction = d))
    && (match o.category with
        | none => true
        | some c => decide (r.category = c))
    && (match o.member_id with
        | none => true
        | some m => decide (r.member_id = some m))

/-- Strict precedence for `ORDER BY r.date DESC, r.created_at DESC`. -/
def recBefore (a b : RecordRow) : Bool :=
  decide (b.date < a.date) || (decide (a.date = b.date) && decide (b.created_at < a.created_at))

/-- Stable insertion for the record ordering. -/
def insertRecDesc (a : RecordRow) : List RecordRow → List RecordRow
  | [] => [a]
  | b :: bs => if recBefore b a then b :: insertRecDesc a bs else a :: b :: bs

/-- The `ORDER BY date DESC, created_at DESC` of `listRecords`, modelled as
a stable sort over table order. -/
def sortRecordsDesc : List RecordRow → List RecordRow
  | [] => []
  | a :: as => insertRecDesc a (sortRecordsDesc as)

/-- JS truthiness of an optional numeric option: `0` and absent are both
falsy. -/
def truthyNat : Option Nat → Bool
  | none => false
  | some n => decide (n ≠ 0)

/-- records.js `listRecords`: filter, order, then
`if (limit) { LIMIT ?; if (offset) { OFFSET ? } }` — the offset clause is
only ever added inside the limit branch. -/
def listRecords (recs : List RecordRow) (bookId : Int) (o : ListRecordsOptions) :
    List RecordRow :=
  let ordered := sortRecordsDesc (recs.filter (matchesListRecords bookId o))
  if truthyNat o.limit then
    if truthyNat o.offset then (ordered.drop (o.offset.getD 0)).take (o.limit.getD 0)
    else ordered.take (o.limit.getD 0)
  else ordered

/-- The update object of `updateRecord(id, data)`. -/
structure RecordUpdateData where
  member_id : Option Int := none
  direction : Option Direction := none
  category : Option String := none
  amount : Option ℚ := none
  date : Option String := none
  note : Option String := none
deriving DecidableEq, Repr

/-- The SET clause of `updateRecord`: `COALESCE(?, column)` per column,
with the member parameter passed through the falsy-to-null coercion. -/
def applyRecordUpdate (d : RecordUpdateData) (r : RecordRow) : RecordRow :=
  { r with
    member_id :=
      match sanitizeMemberParam d.member_id with
      | some v => some v
      | none => r.member_id,
    direction := d.direction.getD r.direction,
    category := d.category.getD r.category,
    amount := d.amount.getD r.amount,
    date := d.date.getD r.date,
    note := d.note.getD r.note }

/-- records.js `updateRecord`: COALESCE-update of the row(s) matching the
id, reporting the number of matched rows as `changes`. -/
def updateRecord (recs : List RecordRow) (id : Int) (d : RecordUpdateData) :
    List RecordRow × MutationResult :=
  let newRecs := recs.map fun r => if r.id = id then applyRecordUpdate d r else r
  let changes := (recs.filter fun r => decide (r.id = id)).length
  (newRecs, { success := decide (0 < changes), changes := changes })

/-! ## ReportsView monthly budget derivation (ReportsView.tsx) -/

/-- Renderer-side budget object (renderer/src/types.ts `Budget`); fields
not read by the report derivation (`categoryName`) are omitted. -/
structure RBudget where
  id : String
  ledgerId : String
  type : Direction
  categoryId : String
  amount : ℚ
  period : Period
  year : Int
  month : Option Nat
deriving DecidableEq, Repr

/-- The sum of the explicit monthly budgets of one month:
`activeBudgets.filter(b => b.period === 'monthly' && b.type === d &&
b.year === year && b.month === month).reduce((s, b) => s + b.amount, 0)`.
The source computes this once per direction (expense and income) with the
direction literal inlined; the aggregation never filters by category. -/
def monthlyBudgetFor (budgets : List RBudget) (ledgerId : String) (d : Direction)
    (y : Int) (m : Nat) : ℚ :=
  ((budgets.filter fun b =>
      decide (b.ledgerId = ledgerId) && decide (b.period = Period.monthly)
        && decide (b.type = d) && decide (b.year = y) && decide (b.month = some m)).map
    fun b => b.amount).sum

/-- The total yearly budget of the selected year for one direction:
`activeBudgets.filter(b => b.period === 'yearly' && b.type === d &&
b.year === year).reduce(...)`. -/
def totalYearlyBudget (budgets : List RBudget) (ledgerId : String) (d : Direction)
    (y : Int) : ℚ :=
  ((budgets.filter fun b =>
      decide (b.ledgerId = ledgerId) && decide (b.period = Period.yearly)
        && decide (b.type = d) && decide (b.year = y)).map
    fun b => b.amount).sum

/-- The running total the `for (let month = 1; month <= 12; ...)` loop
accumulates: the sum of the twelve monthly budget totals. -/
def totalMonthlySetBudget (budgets : List RBudget) (ledgerId : String) (d : Direction)
    (y : Int) : ℚ :=
  ((List.range 12).map fun i => monthlyBudgetFor budgets ledgerId d y (i + 1)).sum

/-- `Object.values(monthlyBudgetMap).filter(v => v === 0).length`: the
count of months (of the 12) whose explicit monthly budget total is zero. -/
def monthsWithoutBudget (budgets : List RBudget) (ledgerId : String) (d : Direction)
    (y : Int) : Nat :=
  (((List.range 12).map fun i => monthlyBudgetFor budgets ledgerId d y (i + 1)).filter
    fun v => decide (v = 0)).length

/-- `defaultMonthlyBudget = monthsWithoutBudget > 0 ? remainingYearly /
monthsWithoutBudget : 0` where `remainingYearly = totalYearly -
totalMonthlySet`. -/
def defaultMonthlyBudget (budgets : List RBudget) (ledgerId : String) (d : Direction)
    (y : Int) : ℚ :=
  if 0 < monthsWithoutBudget budgets ledgerId d y then
    (totalYearlyBudget budgets ledgerId d y - totalMonthlySetBudget budgets ledgerId d y)
      / (monthsWithoutBudget budgets ledgerId d y : ℚ)
  else 0

/-- The per-month budget figure of `chartData`:
`monthlyBudgetMap[month] > 0 ? monthlyBudgetMap[month] : defaultMonthlyBudget`. -/
def chartMonthBudget (budgets : List RBudget) (ledgerId : String) (d : Direction)
    (y : Int) (m : Nat) : ℚ :=
  if 0 < monthlyBudgetFor budgets ledgerId d y m then monthlyBudgetFor budgets ledgerId d y m
  else defaultMonthlyBudget budgets ledgerId d y

/-- Formalisation of the words of the per-category claim (NOT of the
source; used only to compare the source behaviour against the claimed
category-level derivation): month m has an explicit monthly budget row for
this ledger, category, direction and year. -/
def claimHasMonthly (budgets : List RBudget) (ledgerId cat : String) (d : Direction)
    (y : Int) (m : Nat) : Bool :=
  budgets.any fun b =>
    decide (b.ledgerId = ledgerId) && decide (b.period = Period.monthly)
      && decide (b.categoryId = cat) && decide (b.type = d) && decide (b.year = y)
      && decide (b.month = some m)

/-- Formalisation of the words of the per-category claim (NOT of the
source): the derived monthly figure
`(totalYearly - totalMonthlySet) / monthsWithoutBudget` computed for one
category/direction, `0` when `monthsWithoutBudget == 0`. -/
def claimDerivedMonthly (budgets : List RBudget) (ledgerId cat : String) (d : Direction)
    (y : Int) : ℚ :=
  let totalYearly :=
    ((budgets.filter fun b =>
        decide (b.ledgerId = ledgerId) && decide (b.period = Period.yearly)
          && decide (b.categoryId = cat) && decide (b.type = d)
          && decide (b.year = y)).map fun b => b.amount).sum
  let totalMonthlySet :=
    ((List.range 12).map fun i =>
      ((budgets.filter fun b =>
          decide (b.ledgerId = ledgerId) && decide (b.period = Period.monthly)
            && decide (b.categoryId = cat) && decide (b.type = d) && decide (b.year = y)
            && decide (b.month = some (i + 1))).map fun b => b.amount).sum).sum
  let monthsWithout :=
    ((List.range 12).filter fun i => !(claimHasMonthly budgets ledgerId cat d y (i + 1))).length
  if monthsWithout = 0 then 0 else (totalYearly - totalMonthlySet) / (monthsWithout : ℚ)

/-! ## Demonstration data for the concrete witnesses -/

/-- Demonstration rows used by the concrete witnesses below. -/
def demoRecs : List RecordRow :=
  [ { id := 1, book_id := 1, member_id := none, direction := Direction.income,
      category := "salary", amount := 30, date := "2024-01-05", note := "",
      created_at := "2024-01-05T08:00:00" },
    { id := 2, book_id := 1, member_id := some 3, direction := Direction.expense,
      category := "food", amount := 12, date := "2024-01-06", note := "",
      created_at := "2024-01-06T09:00:00" } ]

/-- Demonstration budget rows of book 1. -/
def demoBudgets : List BudgetRow :=
  [ { id := 10, book_id := 1, member_id := none, direction := Direction.expense,
      category := "food", amount := 10, period := Period.monthly,
      date := "2024-01-01" } ]

/-- The execution row expected for the demonstration data: the food budget
of 10 against an actual spend of 12. -/
def demoExecRow : ExecRow :=
  { id := 10, book_id := 1, member_id := none, direction := Direction.expense,
    category := "food", amount := 10, period := Period.monthly,
    date := "2024-01-01", actual := 12, remaining := -2, percentage := 120,
    isOverBudget := true }

/-- Renderer budgets exhibiting the category-mixing of the report
derivation: a yearly food budget and one explicit monthly rent budget in
the same ledger, direction and year. -/
def demoRBudgets : List RBudget :=
  [ { id := "b1", ledgerId := "L1", type := Direction.expense, categoryId := "food",
      amount := 1200, period := Period.yearly, year := 2024, month := none },
    { id := "b2", ledgerId := "L1", type := Direction.expense, categoryId := "rent",
      amount := 150, period := Period.monthly, year := 2024, month := some 1 } ]

/-- Renderer budgets for the distribution example: a yearly budget of 1200
with two explicit monthly budgets of 100. -/
def demoRBudgets2 : List RBudget :=
  [ { id := "b1", ledgerId := "L1", type := Direction.expense, categoryId := "food",
      amount := 1200, period := Period.yearly, year := 2024, month := none },
    { id := "b2", ledgerId := "L1", type := Direction.expense, categoryId := "food",
      amount := 100, period := Period.monthly, year := 2024, month := some 1 },
    { id := "b3", ledgerId := "L1", type := Direction.expense, categoryId := "food",
      amount := 100, period := Period.monthly, year := 2024, month := some 2 } ]

/-- An empty budgets table with AUTOINCREMENT at 1. -/
def demoTable : BudgetsTable := { rows := [], nextId := 1 }

/-- A stand-alone record row for the update-frame witness. -/
def demoRow10 : RecordRow :=
  { id := 7, book_id := 2, member_id := some 5, direction := Direction.expense,
    category := "toys", amount := 9, date := "2024-03-01", note := "n",
    created_at := "2024-03-01T10:00:00" }

/-! ## Generic list lemmas used by the aggregation proofs -/

theorem sum_map_ite_eq_sum_filter {α : Type} (l : List α) (p : α → Bool) (f : α → ℚ) :
    (l.map fun a => if p a then f a else 0).sum = ((l.filter p).map f).sum := by
  induction l with
  | nil => simp
  | cons a l ih =>
      by_cases h : p a <;> simp [List.filter_cons, h, ih]

theorem sum_map_nonneg {α : Type} (l : List α) (f : α → ℚ)
    (h : ∀ a ∈ l, 0 ≤ f a) : 0 ≤ (l.map f).sum := by
  induction l with
  | nil => simp
  | cons a l ih =>
      simp only [List.map_cons, List.sum_cons]
      have ha := h a (by simp)
      have hl := ih fun a ha2 => h a (by simp [ha2])
      linarith

/-- C3: getSummary returns income equal to the sum of amounts of matching
records with direction income, expense the sum for direction expense, and
balance = income - expense; under non-negative amounts both sums are
non-negative; an empty matching set yields the all-zero summary. -/
theorem getSummary_correct (recs : List RecordRow) (bookId : Int) (o : SummaryOptions) :
    (getSummary recs bookId o).income
        = (((recs.filter (matchesSummary bookId o)).filter
              fun r => decide (r.direction = Direction.income)).map fun r => r.amount).sum
    ∧ (getSummary recs bookId o).expense
        = (((recs.filter (matchesSummary bookId o)).filter
              fun r => decide (r.direction = Direction.expense)).map fun r => r.amount).sum
    ∧ (getSummary recs bookId o).balance
        = (getSummary recs bookId o).income - (getSummary recs bookId o).expense
    ∧ ((∀ r ∈ recs, 0 ≤ r.amount) →
        0 ≤ (getSummary recs bookId o).income ∧ 0 ≤ (getSummary recs bookId o).expense)
    ∧ (recs.filter (matchesSummary bookId o) = [] →
        getSummary recs bookId o = { income := 0, expense := 0, balance := 0 }) := by
  refine ⟨?_, ?_, rfl, ?_, ?_⟩
  · simpa [getSummary] using
      sum_map_ite_eq_sum_filter (recs.filter (matchesSummary bookId o))
        (fun r => decide (r.direction = Direction.income)) (fun r => r.amount)
  · simpa [getSummary] using
      sum_map_ite_eq_sum_filter (recs.filter (matchesSummary bookId o))
        (fun r => decide (r.direction = Direction.expense)) (fun r => r.amount)
  · intro hnn
    constructor
    · apply sum_map_nonneg
      intro r hr
      have hmem : r ∈ recs := List.mem_of_mem_filter hr
      by_cases h : r.direction = Direction.income <;> simp [h, hnn r hmem]
    · apply sum_map_nonneg
      intro r hr
      have hmem : r ∈ recs := List.mem_of_mem_filter hr
      by_cases h : r.direction = Direction.expense <;> simp [h, hnn r hmem]
  · intro h
    simp [getSummary, h]

/-- Witness for C3 at a concrete input: two demonstration records in book 1,
no filter. -/
theorem getSummary_correct_witness :
    0 ≤ (getSummary demoRecs 1 {}).income ∧ 0 ≤ (getSummary demoRecs 1 {}).expense :=
  (getSummary_correct demoRecs 1 {}).2.2.2.1 (by decide)

theorem round2_mono {x y : ℚ} (h : x ≤ y) : round2 x ≤ round2 y := by
  unfold round2
  have : round (x * 100) ≤ round (y * 100) := by
    rw [round_eq, round_eq]
    exact Int.floor_le_floor (by linarith)
  have h2 : ((round (x * 100) : ℤ) : ℚ) ≤ ((round (y * 100) : ℤ) : ℚ) := by exact_mod_cast this
  linarith

theorem round2_nonneg {x : ℚ} (h : 0 ≤ x) : 0 ≤ round2 x := by
  have := round2_mono h
  simpa [round2] using this

theorem round2_le_100 {x : ℚ} (h : x ≤ 100) : round2 x ≤ 100 := by
  have := round2_mono h
  have h100 : round2 (100 : ℚ) = 100 := by
    have : round ((100 : ℚ) * 100) = 10000 := by
      have : ((100 : ℚ) * 100) = ((10000 : ℤ) : ℚ) := by norm_num
      rw [this, round_intCast]
    simp [round2, this]
    norm_num
  linarith [h100 ▸ this]

theorem sum_filter_add_sum_filter_not {α : Type} (l : List α) (p : α → Bool) (f : α → ℚ) :
    ((l.filter p).map f).sum + ((l.filter fun a => !(p a)).map f).sum = (l.map f).sum := by
  induction l with
  | nil => simp
  | cons a l ih =>
      by_cases h : p a
      · simp [List.filter_cons, h]
        linarith
      · simp [List.filter_cons, h]
        linarith

theorem mem_insertCat {x c : String} {l : List String} :
    x ∈ insertCat c l ↔ x = c ∨ x ∈ l := by
  induction l with
  | nil => simp [insertCat]
  | cons d ds ih =>
      by_cases h1 : c = d
      · subst h1
        simp only [insertCat, if_pos rfl]
        constructor
        · intro h; exact Or.inr h
        · intro h
          rcases h with h | h
          · simp [h]
          · exact h
      · by_cases h2 : c < d
        · simp [insertCat, h1, h2, ih]
          try tauto
        · simp [insertCat, h1, h2, ih]
          try tauto

theorem pairwise_insertCat {c : String} {l : List String}
    (h : l.Pairwise (· < ·)) : (insertCat c l).Pairwise (· < ·) := by
  induction l with
  | nil => simp [insertCat]
  | cons d ds ih =>
      rcases List.pairwise_cons.mp h with ⟨hd, hds⟩
      by_cases h1 : c = d
      · simpa [insertCat, h1] using h
      · by_cases h2 : c < d
        · simp only [insertCat, if_neg h1, if_pos h2]
          refine List.pairwise_cons.mpr ⟨?_, h⟩
          intro x hx
          rcases List.mem_cons.mp hx with rfl | hx
          · exact h2
          · exact lt_trans h2 (hd x hx)
        · have hdc : d < c := by
            rcases lt_trichotomy c d with h3 | h3 | h3
            · exact absurd h3 h2
            · exact absurd h3 h1
            · exact h3
          simp only [insertCat, if_neg h1, if_neg h2]
          refine List.pairwise_cons.mpr ⟨?_, ih hds⟩
          intro x hx
          rcases mem_insertCat.mp hx with rfl | hx
          · exact hdc
          · exact hd x hx

theorem categoriesAsc_pairwise (rs : List RecordRow) :
    (categoriesAsc rs).Pairwise (· < ·) := by
  induction rs with
  | nil => simp [categoriesAsc]
  | cons r rs ih => simpa [categoriesAsc] using pairwise_insertCat ih

theorem mem_categoriesAsc {rs : List RecordRow} {c : String} :
    c ∈ categoriesAsc rs ↔ ∃ r ∈ rs, r.category = c := by
  induction rs with
  | nil => simp [categoriesAsc]
  | cons r rs ih =>
      show c ∈ insertCat r.category (categoriesAsc rs) ↔ _
      rw [mem_insertCat]
      simp only [List.mem_cons, ih]
      constructor
      · rintro (rfl | ⟨r2, hr2, rfl⟩)
        · exact ⟨r, Or.inl rfl, rfl⟩
        · exact ⟨r2, Or.inr hr2, rfl⟩
      · rintro ⟨r2, hr2 | hr2, rfl⟩
        · subst hr2; exact Or.inl rfl
        · exact Or.inr ⟨r2, hr2, rfl⟩

theorem sum_over_cats {rs : List RecordRow} {cats : List String}
    (hnd : cats.Pairwise (· < ·))
    (hcov : ∀ r ∈ rs, r.category ∈ cats) :
    (cats.map fun c =>
        ((rs.filter fun r => decide (r.category = c)).map fun r => r.amount).sum).sum
      = (rs.map fun r => r.amount).sum := by
  induction cats generalizing rs with
  | nil =>
      cases rs with
      | nil => simp
      | cons r rs => exact absurd (hcov r (by simp)) (by simp)
  | cons c cs ih =>
      rcases List.pairwise_cons.mp hnd with ⟨hc, hcs⟩
      have key := sum_filter_add_sum_filter_not rs (fun r => decide (r.category = c))
        (fun r => r.amount)
      have hcov2 : ∀ r ∈ rs.filter (fun r => !(decide (r.category = c))),
          r.category ∈ cs := by
        intro r hr
        have h1 : r ∈ rs := List.mem_of_mem_filter hr
        have h2 : ¬(r.category = c) := by
          have := List.of_mem_filter hr
          simpa using this
        rcases List.mem_cons.mp (hcov r h1) with h | h
        · exact absurd h h2
        · exact h
      have heq : ∀ cc ∈ cs,
          ((rs.filter fun r => !(decide (r.category = c))).filter
              fun r => decide (r.category = cc))
            = rs.filter fun r => decide (r.category = cc) := by
        intro cc hcc
        rw [List.filter_filter]
        apply List.filter_congr
        intro r _
        by_cases h : r.category = cc
        · have hne : ¬(cc = c) := (hc cc hcc).ne'
          simp [h, hne]
        · simp [h]
      have hmap : (cs.map fun cc =>
            ((rs.filter fun r => decide (r.category = cc)).map fun r => r.amount).sum)
          = cs.map fun cc =>
            (((rs.filter fun r => !(decide (r.category = c))).filter
                fun r => decide (r.category = cc)).map fun r => r.amount).sum := by
        apply List.map_congr_left
        intro cc hcc
        rw [heq cc hcc]
      simp only [List.map_cons, List.sum_cons]
      rw [hmap, ih hcs hcov2]
      linarith

theorem insertDesc_perm (a : CatRow) (l : List CatRow) :
    List.Perm (insertDesc a l) (a :: l) := by
  induction l with
  | nil => simp [insertDesc]
  | cons b bs ih =>
      by_cases h : a.total < b.total
      · simp only [insertDesc, if_pos h]
        exact (ih.cons b).trans (List.Perm.swap a b bs)
      · simp [insertDesc, h]

theorem sortByTotalDesc_perm (l : List CatRow) : List.Perm (sortByTotalDesc l) l := by
  induction l with
  | nil => simp [sortByTotalDesc]
  | cons a as ih => exact (insertDesc_perm a (sortByTotalDesc as)).trans (ih.cons a)

theorem groupRows_total_sum (rs : List RecordRow) :
    ((groupRows rs).map fun g => g.total).sum = (rs.map fun r => r.amount).sum := by
  unfold groupRows
  rw [List.map_map]
  exact sum_over_cats (categoriesAsc_pairwise rs)
    fun r hr => mem_categoriesAsc.mpr ⟨r, hr, rfl⟩

theorem mem_groupRows {rs : List RecordRow} {g : CatRow} (hg : g ∈ groupRows rs) :
    g.total = ((rs.filter fun r => decide (r.category = g.category)).map fun r => r.amount).sum := by
  unfold groupRows at hg
  rcases List.mem_map.mp hg with ⟨c, _, rfl⟩
  rfl

/-- C4: the group totals of getCategorySummary sum exactly to the grand
total of the matching records; under non-negative amounts every percentage
lies in the closed interval from 0 to 100; when the grand total is 0 every
percentage is 0 and the rows are still emitted (one per distinct category
of the matching set). -/
theorem getCategorySummary_partition (recs : List RecordRow) (bookId : Int)
    (o : CategorySummaryOptions) :
    ((getCategorySummary recs bookId o).map fun it => it.total).sum
        = grandTotalOf recs bookId o
    ∧ ((∀ r ∈ recs, 0 ≤ r.amount) → ∀ it ∈ getCategorySummary recs bookId o,
        0 ≤ it.percentage ∧ it.percentage ≤ 100)
    ∧ (grandTotalOf recs bookId o = 0 →
        (∀ it ∈ getCategorySummary recs bookId o, it.percentage = 0)
        ∧ (getCategorySummary recs bookId o).length
            = (categoriesAsc (recs.filter (matchesCategorySummary bookId o))).length) := by
  set matching := recs.filter (matchesCategorySummary bookId o) with hmatching
  refine ⟨?_, ?_, ?_⟩
  · unfold getCategorySummary
    rw [List.map_map]
    have hperm : List.Perm ((sortByTotalDesc (groupRows matching)).map fun g => g.total)
        ((groupRows matching).map fun g => g.total) :=
      (sortByTotalDesc_perm (groupRows matching)).map _
    calc ((sortByTotalDesc (groupRows matching)).map fun g => g.total).sum
        = ((groupRows matching).map fun g => g.total).sum := hperm.sum_eq
      _ = (matching.map fun r => r.amount).sum := groupRows_total_sum matching
      _ = grandTotalOf recs bookId o := rfl
  · intro hnn it hit
    unfold getCategorySummary at hit
    rcases List.mem_map.mp hit with ⟨g, hg, rfl⟩
    have hg2 : g ∈ groupRows matching := (sortByTotalDesc_perm _).mem_iff.mp hg
    have htot := mem_groupRows hg2
    have hnn2 : ∀ r ∈ matching, 0 ≤ r.amount :=
      fun r hr => hnn r (List.mem_of_mem_filter hr)
    have htotnn : 0 ≤ g.total := by
      rw [htot]
      exact sum_map_nonneg _ _ fun r hr => hnn2 r (List.mem_of_mem_filter hr)
    have htotle : g.total ≤ grandTotalOf recs bookId o := by
      have key := sum_filter_add_sum_filter_not matching
        (fun r => decide (r.category = g.category)) (fun r => r.amount)
      have hrest : 0 ≤ ((matching.filter fun r => !(decide (r.category = g.category))).map
          fun r => r.amount).sum :=
        sum_map_nonneg _ _ fun r hr => hnn2 r (List.mem_of_mem_filter hr)
      have : g.total + ((matching.filter fun r => !(decide (r.category = g.category))).map
          fun r => r.amount).sum = grandTotalOf recs bookId o := by
        rw [htot]; exact key
      linarith
    by_cases hgt : 0 < grandTotalOf recs bookId o
    · simp only [if_pos hgt]
      constructor
      · exact round2_nonneg (by positivity)
      · apply round2_le_100
        have h1 : g.total / grandTotalOf recs bookId o ≤ 1 :=
          (div_le_one hgt).mpr htotle
        nlinarith
    · simp [if_neg hgt]
  · intro hzero
    constructor
    · intro it hit
      unfold getCategorySummary at hit
      rcases List.mem_map.mp hit with ⟨g, _, rfl⟩
      simp [hzero]
    · unfold getCategorySummary
      rw [List.length_map, (sortByTotalDesc_perm _).length_eq, groupRows, List.length_map]

/-- Witness for C4 at a concrete input: the bounds hold for every item of the
demonstration summary (direction defaults to expense). -/
theorem getCategorySummary_partition_witness :
    List.Forall (fun it => 0 ≤ it.percentage ∧ it.percentage ≤ 100)
      (getCategorySummary demoRecs 1 {}) :=
  List.forall_iff_forall_mem.mpr
    ((getCategorySummary_partition demoRecs 1 {}).2.1 (by decide))

/-- C9: in listRecords, offset only takes effect when a truthy limit is
supplied: with limit absent or 0 (both JS-falsy), every offset value yields
the full filtered, ordered result — the same output as offset absent. -/
theorem listRecords_offset_needs_limit (recs : List RecordRow) (bookId : Int)
    (o : ListRecordsOptions) (off : Option Nat)
    (h : truthyNat o.limit = false) :
    listRecords recs bookId { o with offset := off }
        = sortRecordsDesc (recs.filter (matchesListRecords bookId o))
    ∧ listRecords recs bookId { o with offset := off }
        = listRecords recs bookId { o with offset := none } := by
  have hfil : matchesListRecords bookId { o with offset := off }
      = matchesListRecords bookId o := rfl
  have hlim : ({ o with offset := off } : ListRecordsOptions).limit = o.limit := rfl
  constructor
  · simp only [listRecords, hfil, hlim, h, Bool.false_eq_true, if_false]
  · simp only [listRecords, h, Bool.false_eq_true, if_false]
    rfl

/-- Witness for C9 at a concrete input: limit 0 with offset 5 returns the
same rows as no offset at all. -/
theorem listRecords_offset_needs_limit_witness :
    listRecords demoRecs 1 { limit := some 0, offset := some 5 }
      = listRecords demoRecs 1 { limit := some 0, offset := none } :=
  (listRecords_offset_needs_limit demoRecs 1 { limit := some 0 } (some 5) (by decide)).2

theorem insertBudgetAsc_perm (a : BudgetRow) (l : List BudgetRow) :
    List.Perm (insertBudgetAsc a l) (a :: l) := by
  induction l with
  | nil => simp [insertBudgetAsc]
  | cons b bs ih =>
      by_cases h : b.category < a.category
      · simp only [insertBudgetAsc, if_pos h]
        exact (ih.cons b).trans (List.Perm.swap a b bs)
      · simp [insertBudgetAsc, h]

theorem sortByCategoryAsc_perm (l : List BudgetRow) :
    List.Perm (sortByCategoryAsc l) l := by
  induction l with
  | nil => simp [sortByCategoryAsc]
  | cons a as ih => exact (insertBudgetAsc_perm a (sortByCategoryAsc as)).trans (ih.cons a)

theorem listBudgets_noopts_perm (budgets : List BudgetRow) (bookId : Int) :
    List.Perm (listBudgets budgets bookId {})
      (budgets.filter fun b => decide (b.book_id = bookId)) := by
  have hfe : budgets.filter (matchesListBudgets bookId {})
      = budgets.filter fun b => decide (b.book_id = bookId) := by
    apply List.filter_congr
    intro b _
    simp [matchesListBudgets]
  unfold listBudgets
  rw [hfe]
  exact sortByCategoryAsc_perm _

/-- C1: getBudgetExecution returns exactly one output row per budget row of
the ledger (the output rows project back to a permutation of the ledger
filter of the budgets table, fields unchanged); each row's actual is the
grouped (direction, category) record sum — member plays no part in the
key — and a budget with no matching records gets actual = 0,
remaining = amount and (under the non-negative-amount data invariant)
isOverBudget = false. -/
theorem getBudgetExecution_complete (budgets : List BudgetRow) (recs : List RecordRow)
    (bookId : Int) (o : ExecOptions) (hnn : ∀ b ∈ budgets, 0 ≤ b.amount) :
    List.Perm ((getBudgetExecution budgets recs bookId o).map toBudgetRow)
      (budgets.filter fun b => decide (b.book_id = bookId))
    ∧ (∀ row ∈ getBudgetExecution budgets recs bookId o,
        row.actual = actualFor recs bookId o row.direction row.category)
    ∧ (∀ row ∈ getBudgetExecution budgets recs bookId o,
        (recs.filter fun r =>
            recInRange bookId o r && decide (r.direction = row.direction)
              && decide (r.category = row.category)) = [] →
          row.actual = 0 ∧ row.remaining = row.amount ∧ row.isOverBudget = false) := by
  refine ⟨?_, ?_, ?_⟩
  · unfold getBudgetExecution
    rw [List.map_map]
    have hid : (listBudgets budgets bookId {}).map
        (toBudgetRow ∘ enrichBudget recs bookId o) = listBudgets budgets bookId {} := by
      rw [List.map_congr_left fun b _ => (rfl : (toBudgetRow ∘ enrichBudget recs bookId o) b = b)]
      exact List.map_id _
    rw [hid]
    exact listBudgets_noopts_perm budgets bookId
  · intro row hrow
    rcases List.mem_map.mp hrow with ⟨b, _, rfl⟩
    rfl
  · intro row hrow hempty
    rcases List.mem_map.mp hrow with ⟨b, hb, rfl⟩
    have hbmem : b ∈ budgets := by
      have h1 : b ∈ budgets.filter fun b => decide (b.book_id = bookId) :=
        (listBudgets_noopts_perm budgets bookId).mem_iff.mp hb
      exact List.mem_of_mem_filter h1
    have hempty2 : (recs.filter fun r =>
        recInRange bookId o r && decide (r.direction = b.direction)
          && decide (r.category = b.category)) = [] := hempty
    have hact : (enrichBudget recs bookId o b).actual = 0 := by
      show actualFor recs bookId o b.direction b.category = 0
      unfold actualFor
      rw [hempty2]
      simp
    refine ⟨hact, ?_, ?_⟩
    · show b.amount - (enrichBudget recs bookId o b).actual = _
      rw [hact]
      show b.amount - 0 = b.amount
      ring
    · show decide (b.amount - actualFor recs bookId o b.direction b.category < 0) = false
      have h0 : actualFor recs bookId o b.direction b.category = 0 := hact
      rw [h0]
      simp only [decide_eq_false_iff_not, not_lt]
      have := hnn b hbmem
      linarith

/-- Witness for C1 at the concrete demonstration data: the single food
budget of book 1 appears exactly once. -/
theorem getBudgetExecution_complete_witness :
    List.Perm ((getBudgetExecution demoBudgets demoRecs 1 {}).map toBudgetRow)
      (demoBudgets.filter fun b => decide (b.book_id = 1)) :=
  (getBudgetExecution_complete demoBudgets demoRecs 1 {} (by decide)).1

/-- C5: in every getBudgetExecution output row, isOverBudget holds exactly
when actual exceeds amount, remaining = amount - actual, a zero amount
yields percentage 0 (no division by zero), and a positive amount yields
the rounded actual/amount ratio. -/
theorem getBudgetExecution_flags (budgets : List BudgetRow) (recs : List RecordRow)
    (bookId : Int) (o : ExecOptions) :
    ∀ row ∈ getBudgetExecution budgets recs bookId o,
      (row.isOverBudget = true ↔ row.amount < row.actual)
      ∧ row.remaining = row.amount - row.actual
      ∧ (row.amount = 0 → row.percentage = 0)
      ∧ (0 < row.amount → row.percentage = round2 (row.actual / row.amount * 100)) := by
  intro row hrow
  rcases List.mem_map.mp hrow with ⟨b, _, rfl⟩
  refine ⟨?_, rfl, ?_, ?_⟩
  · simp only [enrichBudget, decide_eq_true_eq]
    constructor
    · intro h
      linarith
    · intro h
      linarith
  · intro h
    simp only [enrichBudget] at h ⊢
    rw [if_neg]
    rw [h]
    exact lt_irrefl 0
  · intro h
    simp only [enrichBudget] at h ⊢
    rw [if_pos h]

/-- C7: an addBudget call with a required field missing is rejected before
any write — the table is unchanged — and the IPC envelope carries
success = false with a non-empty human-readable error string. -/
theorem addBudget_missing_field_rejected (d : AddBudgetData) (t : BudgetsTable)
    (h : d.book_id = none ∨ d.direction = none ∨ d.category = none
        ∨ d.amount = none ∨ d.period = none ∨ d.date = none) :
    (budgetsAddHandler d t).1.success = false
    ∧ (budgetsAddHandler d t).1.error = some addBudgetErrMsg
    ∧ addBudgetErrMsg ≠ ""
    ∧ (budgetsAddHandler d t).2 = t := by
  have herr : addBudget d t = Except.error addBudgetErrMsg := by
    unfold addBudget
    rw [if_pos h]
  refine ⟨?_, ?_, ?_, ?_⟩
  · simp [budgetsAddHandler, herr, wrapHandler]
  · simp [budgetsAddHandler, herr, wrapHandler]
  · decide
  · simp [budgetsAddHandler, herr]

/-- Witness for C7 at a concrete input: an add request with every field but
the amount leaves the empty table empty and fails. -/
theorem addBudget_missing_field_rejected_witness :
    (budgetsAddHandler
        { book_id := some 1, direction := some Direction.expense,
          category := some "food", period := some Period.monthly,
          date := some "2024-01-01" } demoTable).1.success = false
    ∧ (budgetsAddHandler
        { book_id := some 1, direction := some Direction.expense,
          category := some "food", period := some Period.monthly,
          date := some "2024-01-01" } demoTable).2 = demoTable := by
  have h := addBudget_missing_field_rejected
    { book_id := some 1, direction := some Direction.expense,
      category := some "food", period := some Period.monthly,
      date := some "2024-01-01" } demoTable
    (Or.inr (Or.inr (Or.inr (Or.inl rfl))))
  exact ⟨h.1, h.2.2.2⟩

theorem latestBudgetFor_nil_filter {rows : List BudgetRow} {bid : Int} {cat : String}
    (h : rows.filter (fun r => decide (r.book_id = bid ∧ r.category = cat)) = []) :
    latestBudgetFor rows bid cat = none := by
  unfold latestBudgetFor
  rw [h]
  rfl

theorem latestBudgetFor_append_literal {rows : List BudgetRow} {bid : Int} {cat : String}
    (h : rows.filter (fun r => decide (r.book_id = bid ∧ r.category = cat)) = [])
    (i : Int) (mid : Option Int) (dir : Direction) (amt : ℚ) (per : Period) (dt : String) :
    latestBudgetFor
        (rows ++ [{ id := i, book_id := bid, member_id := mid, direction := dir,
                    category := cat, amount := amt, period := per, date := dt }]) bid cat
      = some { id := i, book_id := bid, member_id := mid, direction := dir,
               category := cat, amount := amt, period := per, date := dt } := by
  unfold latestBudgetFor
  rw [List.filter_append, h]
  simp

/-- C6: two addBudget calls with the same (ledger, category) pair — into a
table holding no budget for that pair — leave exactly one budget row for
the pair, holding the amount of the later call. -/
theorem addBudget_upsert (t : BudgetsTable) (bid : Int) (cat : String)
    (m1 m2 : Option Int) (dir1 dir2 : Direction) (a1 a2 : ℚ)
    (p1 p2 : Period) (dt1 dt2 : String)
    (hnone : t.rows.filter (fun r => decide (r.book_id = bid ∧ r.category = cat)) = []) :
    ((addBudgetTwice
        { book_id := some bid, member_id := m1, direction := some dir1,
          category := some cat, amount := some a1, period := some p1, date := some dt1 }
        { book_id := some bid, member_id := m2, direction := some dir2,
          category := some cat, amount := some a2, period := some p2, date := some dt2 }
        t).rows.filter fun r => decide (r.book_id = bid ∧ r.category = cat)).length = 1
    ∧ ∀ r ∈ (addBudgetTwice
        { book_id := some bid, member_id := m1, direction := some dir1,
          category := some cat, amount := some a1, period := some p1, date := some dt1 }
        { book_id := some bid, member_id := m2, direction := some dir2,
          category := some cat, amount := some a2, period := some p2, date := some dt2 }
        t).rows, r.book_id = bid → r.category = cat → r.amount = a2 := by
  have hv1 : ¬((some bid : Option Int) = none ∨ (some dir1 : Option Direction) = none
      ∨ (some cat : Option String) = none ∨ (some a1 : Option ℚ) = none
      ∨ (some p1 : Option Period) = none ∨ (some dt1 : Option String) = none) := by simp
  have hv2 : ¬((some bid : Option Int) = none ∨ (some dir2 : Option Direction) = none
      ∨ (some cat : Option String) = none ∨ (some a2 : Option ℚ) = none
      ∨ (some p2 : Option Period) = none ∨ (some dt2 : Option String) = none) := by simp
  have ht2 : (addBudgetTwice
      { book_id := some bid, member_id := m1, direction := some dir1,
        category := some cat, amount := some a1, period := some p1, date := some dt1 }
      { book_id := some bid, member_id := m2, direction := some dir2,
        category := some cat, amount := some a2, period := some p2, date := some dt2 }
      t).rows
      = (t.rows ++ [({ id := t.nextId, book_id := bid,
                       member_id := sanitizeMemberParam m1, direction := dir1,
                       category := cat, amount := a1, period := p1,
                       date := dt1 } : BudgetRow)]).map fun r =>
            if r.id = t.nextId then
              { r with member_id := sanitizeMemberParam m2, direction := dir2,
                       amount := a2, period := p2, date := dt2 }
            else r := by
    simp only [addBudgetTwice, addBudget, Option.getD_some, if_neg hv1, if_neg hv2,
      latestBudgetFor_nil_filter hnone, latestBudgetFor_append_literal hnone]
  have hupd_frame : ∀ r : BudgetRow,
      ((if r.id = t.nextId then
          { r with member_id := sanitizeMemberParam m2, direction := dir2,
                   amount := a2, period := p2, date := dt2 }
        else r) : BudgetRow).book_id = r.book_id
      ∧ ((if r.id = t.nextId then
          { r with member_id := sanitizeMemberParam m2, direction := dir2,
                   amount := a2, period := p2, date := dt2 }
        else r) : BudgetRow).category = r.category := by
    intro r
    by_cases h : r.id = t.nextId
    · simp [h]
    · simp [h]
  have hold : ∀ r ∈ t.rows, ¬(r.book_id = bid ∧ r.category = cat) := by
    intro r hr
    have := List.filter_eq_nil_iff.mp hnone r hr
    simpa using this
  have hmap_nil : ((t.rows.map fun r =>
        if r.id = t.nextId then
          { r with member_id := sanitizeMemberParam m2, direction := dir2,
                   amount := a2, period := p2, date := dt2 }
        else r).filter fun r => decide (r.book_id = bid ∧ r.category = cat)) = [] := by
    rw [List.filter_eq_nil_iff]
    intro x hx
    rcases List.mem_map.mp hx with ⟨r0, hr0, rfl⟩
    rcases hupd_frame r0 with ⟨hb, hc⟩
    simp only [decide_eq_true_eq, hb, hc]
    exact hold r0 hr0
  rw [ht2, List.map_append, List.filter_append]
  constructor
  · rw [hmap_nil]
    simp
  · intro r hr hb hc
    rcases List.mem_append.mp hr with hmem | hmem
    · rcases List.mem_map.mp hmem with ⟨r0, hr0, rfl⟩
      rcases hupd_frame r0 with ⟨hb0, hc0⟩
      exact absurd ⟨hb0 ▸ hb, hc0 ▸ hc⟩ (hold r0 hr0)
    · simp only [List.map_cons, List.map_nil, List.mem_singleton] at hmem
      subst hmem
      simp

/-- Witness for C6 at a concrete input: two adds of the same (1, food)
pair with amounts 500 then 800 into the empty table keep a single row. -/
theorem addBudget_upsert_witness :
    ((addBudgetTwice
        { book_id := some 1, member_id := none, direction := some Direction.expense,
          category := some "food", amount := some 500, period := some Period.monthly,
          date := some "2024-01-01" }
        { book_id := some 1, member_id := none, direction := some Direction.expense,
          category := some "food", amount := some 800, period := some Period.monthly,
          date := some "2024-02-01" }
        demoTable).rows.filter fun r => decide (r.book_id = 1 ∧ r.category = "food")).length = 1 :=
  (addBudget_upsert demoTable 1 "food" none none Direction.expense Direction.expense
    500 800 Period.monthly Period.monthly "2024-01-01" "2024-02-01" (by decide)).1

/-- Witness for C5 at the concrete demonstration data: the over-spent food
budget row. -/
theorem getBudgetExecution_flags_witness :
    (demoExecRow.isOverBudget = true ↔ demoExecRow.amount < demoExecRow.actual)
    ∧ demoExecRow.remaining = demoExecRow.amount - demoExecRow.actual
    ∧ (demoExecRow.amount = 0 → demoExecRow.percentage = 0)
    ∧ (0 < demoExecRow.amount →
        demoExecRow.percentage = round2 (demoExecRow.actual / demoExecRow.amount * 100)) :=
  getBudgetExecution_flags demoBudgets demoRecs 1 {} demoExecRow (by
    have h : getBudgetExecution demoBudgets demoRecs 1 {} = [demoExecRow] := by
      simp [getBudgetExecution, listBudgets, sortByCategoryAsc, insertBudgetAsc,
        matchesListBudgets, enrichBudget, actualFor, recInRange, demoBudgets, demoRecs,
        demoExecRow, List.filter]
      norm_num [round2, round_eq]
    rw [h]
    simp)

/-- C10: in record and budget updates every field omitted from the update
data (or passed as null, both bound as SQL NULL) keeps its stored value via
COALESCE, the columns outside the SET clause (id, book_id, and created_at
for records) are unchanged, a set member_id can never be cleared back to
null by an update, and rows whose id differs from the target are untouched
(the update maps only the matching rows). -/
theorem update_coalesce_frame (rd : RecordUpdateData) (r : RecordRow)
    (bd : UpdateBudgetData) (b : BudgetRow)
    (recs : List RecordRow) (rid : Int) (bs : List BudgetRow) (bid : Int) :
    ((rd.member_id = none → (applyRecordUpdate rd r).member_id = r.member_id)
      ∧ (rd.direction = none → (applyRecordUpdate rd r).direction = r.direction)
      ∧ (rd.category = none → (applyRecordUpdate rd r).category = r.category)
      ∧ (rd.amount = none → (applyRecordUpdate rd r).amount = r.amount)
      ∧ (rd.date = none → (applyRecordUpdate rd r).date = r.date)
      ∧ (rd.note = none → (applyRecordUpdate rd r).note = r.note)
      ∧ (applyRecordUpdate rd r).id = r.id
      ∧ (applyRecordUpdate rd r).book_id = r.book_id
      ∧ (applyRecordUpdate rd r).created_at = r.created_at
      ∧ (∀ m, r.member_id = some m → ∃ m2, (applyRecordUpdate rd r).member_id = some m2))
    ∧ ((bd.member_id = none → (applyBudgetUpdate bd b).member_id = b.member_id)
      ∧ (bd.direction = none → (applyBudgetUpdate bd b).direction = b.direction)
      ∧ (bd.category = none → (applyBudgetUpdate bd b).category = b.category)
      ∧ (bd.amount = none → (applyBudgetUpdate bd b).amount = b.amount)
      ∧ (bd.period = none → (applyBudgetUpdate bd b).period = b.period)
      ∧ (bd.date = none → (applyBudgetUpdate bd b).date = b.date)
      ∧ (applyBudgetUpdate bd b).id = b.id
      ∧ (applyBudgetUpdate bd b).book_id = b.book_id
      ∧ (∀ m, b.member_id = some m → ∃ m2, (applyBudgetUpdate bd b).member_id = some m2))
    ∧ (updateRecord recs rid rd).1
        = recs.map (fun x => if x.id = rid then applyRecordUpdate rd x else x)
    ∧ (updateBudget bs bid bd).1
        = bs.map (fun x => if x.id = bid then applyBudgetUpdate bd x else x) := by
  refine ⟨⟨?_, ?_, ?_, ?_, ?_, ?_, rfl, rfl, rfl, ?_⟩,
          ⟨?_, ?_, ?_, ?_, ?_, ?_, rfl, rfl, ?_⟩, rfl, rfl⟩
  · intro h
    simp [applyRecordUpdate, sanitizeMemberParam, h]
  · intro h
    simp [applyRecordUpdate, h]
  · intro h
    simp [applyRecordUpdate, h]
  · intro h
    simp [applyRecordUpdate, h]
  · intro h
    simp [applyRecordUpdate, h]
  · intro h
    simp [applyRecordUpdate, h]
  · intro m hm
    cases hs : sanitizeMemberParam rd.member_id with
    | none => exact ⟨m, by simp [applyRecordUpdate, hs, hm]⟩
    | some v => exact ⟨v, by simp [applyRecordUpdate, hs]⟩
  · intro h
    simp [applyBudgetUpdate, sanitizeMemberParam, h]
  · intro h
    simp [applyBudgetUpdate, h]
  · intro h
    simp [applyBudgetUpdate, h]
  · intro h
    simp [applyBudgetUpdate, h]
  · intro h
    simp [applyBudgetUpdate, h]
  · intro h
    simp [applyBudgetUpdate, h]
  · intro m hm
    cases hs : sanitizeMemberParam bd.member_id with
    | none => exact ⟨m, by simp [applyBudgetUpdate, hs, hm]⟩
    | some v => exact ⟨v, by simp [applyBudgetUpdate, hs]⟩

/-- Witness for C10 at concrete inputs: an empty update keeps the member,
and an amount-only update keeps the category. -/
theorem update_coalesce_frame_witness :
    (applyRecordUpdate {} demoRow10).member_id = demoRow10.member_id
    ∧ (applyRecordUpdate { amount := some 11 } demoRow10).category = demoRow10.category :=
  ⟨(update_coalesce_frame {} demoRow10 {} (toBudgetRow demoExecRow) [] 0 [] 0).1.1 rfl,
   (update_coalesce_frame { amount := some 11 } demoRow10 {}
      (toBudgetRow demoExecRow) [] 0 [] 0).1.2.2.1 rfl⟩

/-- Counterexample for C2: the claim derives the fallback figure per
category/direction, but the report aggregates per direction across all
categories. With a yearly food budget of 1200 and one explicit monthly
rent budget of 150 in January, month 2 has no explicit monthly food budget,
yet the report shows (1200 - 150) / 11 instead of the claimed
per-category figure 1200 / 12 = 100. -/
theorem chartMonthBudget_counterexample :
    claimHasMonthly demoRBudgets "L1" "food" Direction.expense 2024 2 = false
    ∧ chartMonthBudget demoRBudgets "L1" Direction.expense 2024 2
        ≠ claimDerivedMonthly demoRBudgets "L1" "food" Direction.expense 2024 := by
  constructor
  · decide
  · have hm : monthlyBudgetFor demoRBudgets "L1" Direction.expense 2024 2 = 0 := by
      simp [monthlyBudgetFor, demoRBudgets]
    have hy : totalYearlyBudget demoRBudgets "L1" Direction.expense 2024 = 1200 := by
      simp [totalYearlyBudget, demoRBudgets]
    have hs : totalMonthlySetBudget demoRBudgets "L1" Direction.expense 2024 = 150 := by
      simp [totalMonthlySetBudget, monthlyBudgetFor, demoRBudgets, List.range_succ]
    have hw : monthsWithoutBudget demoRBudgets "L1" Direction.expense 2024 = 11 := by
      simp [monthsWithoutBudget, monthlyBudgetFor, demoRBudgets, List.range_succ]
    have h1 : chartMonthBudget demoRBudgets "L1" Direction.expense 2024 2 = 1050 / 11 := by
      simp only [chartMonthBudget, hm, defaultMonthlyBudget, hy, hs, hw]
      norm_num
    have h2 : claimDerivedMonthly demoRBudgets "L1" "food" Direction.expense 2024 = 100 := by
      simp [claimDerivedMonthly, claimHasMonthly, demoRBudgets, List.range_succ]
      norm_num
    rw [h1, h2]
    norm_num

/-- C2 amended: for every direction and year, aggregating the active
budgets across all categories, a month whose explicit monthly budget total
is zero derives its figure as
(totalYearly - totalMonthlySet) / monthsWithoutBudget — such a month makes
monthsWithoutBudget positive — and the default figure is 0 whenever
monthsWithoutBudget is 0. -/
theorem chartMonthBudget_fallback (budgets : List RBudget) (ledgerId : String)
    (d : Direction) (y : Int) (m : Nat) (hm1 : 1 ≤ m) (hm2 : m ≤ 12)
    (hz : monthlyBudgetFor budgets ledgerId d y m = 0) :
    chartMonthBudget budgets ledgerId d y m
      = (totalYearlyBudget budgets ledgerId d y - totalMonthlySetBudget budgets ledgerId d y)
        / (monthsWithoutBudget budgets ledgerId d y : ℚ)
    ∧ 0 < monthsWithoutBudget budgets ledgerId d y
    ∧ (monthsWithoutBudget budgets ledgerId d y = 0 →
        defaultMonthlyBudget budgets ledgerId d y = 0) := by
  have hpos : 0 < monthsWithoutBudget budgets ledgerId d y := by
    have hmem : monthlyBudgetFor budgets ledgerId d y m
        ∈ (List.range 12).map fun i => monthlyBudgetFor budgets ledgerId d y (i + 1) := by
      apply List.mem_map.mpr
      refine ⟨m - 1, ?_, ?_⟩
      · exact List.mem_range.mpr (by omega)
      · congr 1
        omega
    have hmem2 : monthlyBudgetFor budgets ledgerId d y m
        ∈ ((List.range 12).map fun i => monthlyBudgetFor budgets ledgerId d y (i + 1)).filter
            fun v => decide (v = 0) :=
      List.mem_filter.mpr ⟨hmem, by simp [hz]⟩
    exact List.length_pos_of_mem hmem2
  refine ⟨?_, hpos, ?_⟩
  · simp only [chartMonthBudget, hz, lt_irrefl, if_false, defaultMonthlyBudget, if_pos hpos]
  · intro h0
    simp only [defaultMonthlyBudget, h0, lt_irrefl, if_false]

/-- Witness for the amended C2: a yearly budget of 1200 with two explicit
monthly budgets of 100 derives (1200 - 200) / 10 = 100 for unset month 3. -/
theorem chartMonthBudget_fallback_witness :
    chartMonthBudget demoRBudgets2 "L1" Direction.expense 2024 3 = 100 := by
  have hz : monthlyBudgetFor demoRBudgets2 "L1" Direction.expense 2024 3 = 0 := by
    simp [monthlyBudgetFor, demoRBudgets2]
  have h := chartMonthBudget_fallback demoRBudgets2 "L1" Direction.expense 2024 3
    (by norm_num) (by norm_num) hz
  rw [h.1]
  have hy : totalYearlyBudget demoRBudgets2 "L1" Direction.expense 2024 = 1200 := by
    simp [totalYearlyBudget, demoRBudgets2]
  have hs : totalMonthlySetBudget demoRBudgets2 "L1" Direction.expense 2024 = 200 := by
    simp [totalMonthlySetBudget, monthlyBudgetFor, demoRBudgets2, List.range_succ]
    norm_num
  have hw : monthsWithoutBudget demoRBudgets2 "L1" Direction.expense 2024 = 10 := by
    simp [monthsWithoutBudget, monthlyBudgetFor, demoRBudgets2, List.range_succ]
  rw [hy, hs, hw]
  norm_num

end FamilyLedger
